import Mathlib

/-!
Verification development for the Moonkit upgrade migration engine and its
peripheral components (pallet-migrations scheduler, the bounded-batch
legacy-storage cleanup call, the nimbus import-queue verifier, and the
foreign-asset-creator pallet's mapping extrinsics).

Weights are modelled as natural numbers (the tests only ever use the
ref-time component, `Weight::from_parts(x, 0)`). Migration names are
strings. The completion ledger (the pallet's `MigrationState` storage map,
viewed as the set of names mapped to `true`) is modelled as the list of
names in insertion order.
-/

/-- Lifecycle events of the upgrade scheduler. In the pallet's `Event` enum
these are `RuntimeUpgradeStarted`, `MigrationStarted { migration_name }`,
`MigrationCompleted { migration_name, consumed_weight }` and
`RuntimeUpgradeCompleted { weight }`; the spec calls the two cycle events
`UpgradeCycleStarted` / `UpgradeCycleCompleted`. -/
inductive Event where
  | UpgradeCycleStarted : Event
  | MigrationStarted : String → Event
  | MigrationCompleted : String → Nat → Event
  | UpgradeCycleCompleted : Nat → Event
deriving DecidableEq, Repr

/-- A Migration Descriptor: a stable name together with a bounded-step
execution function `step : remaining_budget → weight_consumed`
(the pallet's `Migration` trait: `friendly_name()` and `migrate(available)`). -/
structure MigrationDescriptor where
  name : String
  step : Nat → Nat

/-- Modelled from the spec: the completion-ledger query backing
`is_fully_upgraded()` (the pallet's lib.rs is not in the source tree; per
spec section 4.2 it is true iff every registry name is contained in the
ledger). -/
def is_fully_upgraded (reg : List MigrationDescriptor) (ledger : List String) : Bool :=
  reg.all (fun d => decide (d.name ∈ ledger))

/-- Modelled from the spec: step 1 of the scheduler algorithm (spec
section 4.1) — `outstanding = registry.names - ledger.names`, preserving
registry order. -/
def outstanding (reg : List MigrationDescriptor) (ledger : List String) :
    List MigrationDescriptor :=
  reg.filter (fun d => decide (d.name ∉ ledger))

/-- Result of the per-tick descriptor loop: the updated ledger, the
`Migration*` events emitted, and the accumulated consumed weight. -/
structure LoopResult where
  ledger : List String
  events : List Event
  total : Nat
deriving Repr

/-- Modelled from the spec: the descriptor loop of `process_runtime_upgrades`
(spec section 4.1 step 3, the pallet's lib.rs is not in the source tree).
For each outstanding descriptor, in order: emit `MigrationStarted`, invoke
`step(remaining_budget)`, record the name in the ledger, emit
`MigrationCompleted`, and accumulate the consumed weight. The budget policy
is the spec's: the remaining budget is tracked (truncated subtraction gives
an over-budget step a remaining budget of zero) but an overrun never aborts
the loop. -/
def runOutstanding (budget : Nat) :
    List MigrationDescriptor → List String → Nat → LoopResult
  | [], ledger, acc => ⟨ledger, [], acc⟩
  | d :: rest, ledger, acc =>
      let consumed := d.step (budget - acc)
      let r := runOutstanding budget rest (ledger ++ [d.name]) (acc + consumed)
      ⟨r.ledger, Event.MigrationStarted d.name ::
        Event.MigrationCompleted d.name consumed :: r.events, r.total⟩

/-- Result of one scheduler tick: updated ledger, emitted events (in
order), and the weight value reported back to the host. -/
structure TickResult where
  ledger : List String
  events : List Event
  charged : Nat
deriving Repr

/-- Modelled from the spec: the scheduler tick `run_upgrade_tick` (the
pallet's `on_runtime_upgrade` / `process_runtime_upgrades`; its lib.rs is
not in the source tree). Per spec section 4.1 steps 3-5, section 8 and the
in-tree tests (`on_runtime_upgrade_emits_events`,
`migration_should_only_be_invoked_once`), `UpgradeCycleStarted` is emitted
unconditionally at the start of every tick — also when `outstanding` is
already empty, where the tick then emits the cycle pair alone and charges
only the fixed overhead. The closing `UpgradeCycleCompleted` carries the
accumulated cost plus the fixed overhead, and that same value is returned
to the host (spec section 4.1 step 4). -/
def run_upgrade_tick (overhead budget : Nat) (reg : List MigrationDescriptor)
    (ledger : List String) : TickResult :=
  let r := runOutstanding budget (outstanding reg ledger) ledger 0
  ⟨r.ledger,
    Event.UpgradeCycleStarted ::
      (r.events ++ [Event.UpgradeCycleCompleted (overhead + r.total)]),
    overhead + r.total⟩

/-- Names carried by `MigrationStarted` events, in emission order. Each
loop iteration emits exactly one `MigrationStarted` immediately before the
single `step` invocation, so this list is the per-tick step-invocation
trace. -/
def migrationStartedNames : List Event → List String
  | [] => []
  | Event.MigrationStarted n :: es => n :: migrationStartedNames es
  | _ :: es => migrationStartedNames es

/-- Names carried by `MigrationCompleted` events, in emission order. -/
def migrationCompletedNames : List Event → List String
  | [] => []
  | Event.MigrationCompleted n _ :: es => n :: migrationCompletedNames es
  | _ :: es => migrationCompletedNames es

/-- Sum of the consumed weights carried by `MigrationCompleted` events. -/
def sumConsumed : List Event → Nat
  | [] => 0
  | Event.MigrationCompleted _ c :: es => c + sumConsumed es
  | _ :: es => sumConsumed es

/-- Modelled from the spec: a sequence of normal-operation ticks (spec
sections 3 and 8; each element of `ps` supplies the fixed overhead and the
per-tick budget of one tick), threading the completion ledger through. -/
def runTicks (reg : List MigrationDescriptor) :
    List (Nat × Nat) → List String → List String
  | [], ledger => ledger
  | p :: ps, ledger => runTicks reg ps (run_upgrade_tick p.1 p.2 reg ledger).ledger

/-! ## Bounded-batch administrative cleanup (`clear_local_assets_storage`) -/

/-- Errors surfaced by the administrative cleanup call. -/
inductive ClearError where
  | BadOrigin : ClearError
  | NoEntriesToRemove : ClearError
deriving DecidableEq, Repr

/-- Modelled from the spec: the `clear_local_assets_storage` dispatchable
(spec sections 4.5, 6 and 7; the pallet's lib.rs is not in the source
tree, only its test `test_call_clear_local_assets_storage`). The storage
entries under the legacy `LocalAssets` prefix are modelled as the list of
their keys. The caller must be signed, at most `limit` entries are removed
in one call, and a call made when no matching entries remain fails
explicitly instead of succeeding as a no-op. -/
def clear_local_assets_storage {K : Type} (originSigned : Bool) (limit : Nat)
    (entries : List K) : Except ClearError (List K) :=
  if originSigned = false then Except.error ClearError.BadOrigin
  else if entries.isEmpty then Except.error ClearError.NoEntriesToRemove
  else Except.ok (entries.drop limit)

/-! ## Nimbus import-queue verifier (`client/consensus/nimbus/src/import_queue.rs`)

The digest-item, extrinsic and justification payloads are opaque to the
verifier, so they are type parameters. The inherent-checking path
(`create_inherent_data`, the `check_inherents` runtime API and its result)
is an external collaborator, modelled as an oracle returning
`Except String Unit`. -/

/-- Block origins (`sp_consensus::BlockOrigin`); the verifier only compares
against `NetworkInitialSync`. -/
inductive BlockOrigin where
  | genesis : BlockOrigin
  | networkInitialSync : BlockOrigin
  | networkBroadcast : BlockOrigin
  | consensusBroadcast : BlockOrigin
  | own : BlockOrigin
  | file : BlockOrigin
deriving DecidableEq, Repr

/-- A block header, reduced to its digest log list (the only part the
verifier inspects or mutates). -/
structure Header (D : Type) where
  digest : List D
deriving DecidableEq, Repr

/-- Popping the last digest item, as `header.digest_mut().pop()` does
(`sp_runtime::Digest::pop` removes and returns the last log item). -/
def digestPop {D : Type} (h : Header D) : Option (D × Header D) :=
  match h.digest.getLast? with
  | none => none
  | some s0 => some (s0, ⟨h.digest.dropLast⟩)

/-- The fields of `BlockImportParams` that `Verifier::verify` fills in. -/
structure BlockImportParams (D E J : Type) where
  header : Header D
  postDigests : List D
  body : Option (List E)
  justifications : Option J
  forkChoiceCustom : Bool
deriving DecidableEq, Repr

/-- Shallow embedding of `Verifier::verify` (import_queue.rs lines 52-128):
pop the seal off the header's digest, failing with "HeaderUnsealed" when
the digest list is empty; when a body is present, run the inherent check
against the already-popped header; then build the block-import parameters,
attaching the seal as the single post-digest and setting the custom fork
choice to whether the origin is the initial network sync. -/
def Verifier.verify {D E J : Type}
    (checkInherents : Header D → List E → Except String Unit)
    (origin : BlockOrigin) (header : Header D) (justifications : Option J)
    (body : Option (List E)) : Except String (BlockImportParams D E J) :=
  match digestPop header with
  | none => Except.error "HeaderUnsealed"
  | some (sealItem, poppedHeader) =>
    match body with
    | some innerBody =>
      match checkInherents poppedHeader innerBody with
      | Except.error e => Except.error e
      | Except.ok _ =>
        Except.ok ⟨poppedHeader, [sealItem], some innerBody, justifications,
          decide (origin = BlockOrigin.networkInitialSync)⟩
    | none =>
      Except.ok ⟨poppedHeader, [sealItem], none, justifications,
        decide (origin = BlockOrigin.networkInitialSync)⟩

/-! ## Foreign-asset-creator pallet (`pallets/foreign-asset-creator/src/lib.rs`)

`ForeignAsset` and `AssetId` are type parameters with decidable equality.
The two storage maps `AssetIdToForeignAsset` and `ForeignAssetToAssetId`
are association lists; `alookup`/`ainsert` give `StorageMap` get/insert
semantics (insert overwrites an existing binding for the key). The origin
checks and `T::Fungibles::create` are external collaborators, modelled as
boolean oracles for whether they succeed. -/

/-- Association-list lookup (`StorageMap::get`). -/
def alookup {K V : Type} [DecidableEq K] : List (K × V) → K → Option V
  | [], _ => none
  | (k, v) :: rest, k0 => if k = k0 then some v else alookup rest k0

/-- Association-list insert (`StorageMap::insert`): overwrites the binding
for the key when present, appends it otherwise. -/
def ainsert {K V : Type} [DecidableEq K] : List (K × V) → K → V → List (K × V)
  | [], k0, v0 => [(k0, v0)]
  | (k, v) :: rest, k0, v0 =>
      if k = k0 then (k0, v0) :: rest else (k, v) :: ainsert rest k0 v0

/-- Errors of the foreign-asset-creator pallet paths exercised by
`create_foreign_asset`: a rejected origin, the pallet's own
`AssetAlreadyExists`, and a failure inside `T::Fungibles::create`. -/
inductive FACError where
  | BadOrigin : FACError
  | AssetAlreadyExists : FACError
  | FungiblesCreateFailed : FACError
deriving DecidableEq, Repr

/-- Events deposited by `create_foreign_asset`. -/
inductive FACEvent (F A : Type) where
  | ForeignAssetCreated : A → F → FACEvent F A
deriving DecidableEq, Repr

/-- The pallet's storage: the two maps plus the deposited events. -/
structure FACState (F A : Type) where
  assetIdToForeignAsset : List (A × F)
  foreignAssetToAssetId : List (F × A)
  events : List (FACEvent F A)
deriving DecidableEq, Repr

/-- Shallow embedding of the `create_foreign_asset` dispatchable (lib.rs
lines 131-160). `ensureOriginOk` models whether
`ForeignAssetCreatorOrigin::ensure_origin` accepts the origin and
`fungiblesCreateOk` whether `T::Fungibles::create` succeeds. Dispatch
errors roll the extrinsic back, so every failing branch returns the state
unchanged alongside the error. -/
def create_foreign_asset {F A : Type} [DecidableEq F] [DecidableEq A]
    (ensureOriginOk fungiblesCreateOk : Bool) (foreign_asset : F)
    (asset_id : A) (s : FACState F A) :
    Except FACError Unit × FACState F A :=
  if ensureOriginOk = false then (Except.error FACError.BadOrigin, s)
  else if (alookup s.assetIdToForeignAsset asset_id).isSome then
    (Except.error FACError.AssetAlreadyExists, s)
  else if fungiblesCreateOk = false then
    (Except.error FACError.FungiblesCreateFailed, s)
  else
    (Except.ok (),
      ⟨ainsert s.assetIdToForeignAsset asset_id foreign_asset,
        ainsert s.foreignAssetToAssetId foreign_asset asset_id,
        s.events ++ [FACEvent.ForeignAssetCreated asset_id foreign_asset]⟩)

/-- `MaybeEquivalence::convert` for the pallet (lib.rs lines 245-247):
foreign asset to asset id, via `ForeignAssetToAssetId`. -/
def convert {F A : Type} [DecidableEq F] [DecidableEq A]
    (s : FACState F A) (foreign_asset : F) : Option A :=
  alookup s.foreignAssetToAssetId foreign_asset

/-- `MaybeEquivalence::convert_back` for the pallet (lib.rs lines 248-250):
asset id to foreign asset, via `AssetIdToForeignAsset`. -/
def convert_back {F A : Type} [DecidableEq F] [DecidableEq A]
    (s : FACState F A) (asset_id : A) : Option F :=
  alookup s.assetIdToForeignAsset asset_id

/-! ## Concrete inputs used by the witnesses -/

/-- Concrete registry: one already-recorded descriptor and two outstanding
ones. -/
def c1Reg : List MigrationDescriptor :=
  [⟨"done1", fun _ => 5⟩, ⟨"m1", fun _ => 1⟩, ⟨"m2", fun _ => 2⟩]

/-- Concrete overweight descriptors mirroring the test
`overweight_migrations_tolerated`. -/
def c3m1 : MigrationDescriptor := ⟨"migration1", fun _ => 1000000000000⟩

/-- Second overweight descriptor. -/
def c3m2 : MigrationDescriptor := ⟨"migration2", fun _ => 1000000000000⟩

/-- Third overweight descriptor. -/
def c3m3 : MigrationDescriptor := ⟨"migration3", fun _ => 1000000000000⟩

/-- Concrete single-descriptor registry for the ledger-monotonicity
witness. -/
def c8Reg : List MigrationDescriptor := [⟨"m1", fun _ => 1⟩]

/-- Concrete always-succeeding inherent-check oracle for the verifier
witness. -/
def c9chk : Header Nat → List Nat → Except String Unit :=
  fun _ _ => Except.ok ()

/-- Concrete sealed header (two digest items, the seal being the last). -/
def c9header : Header Nat := ⟨[1, 2]⟩

/-- Block-import parameters the verifier produces for `c9header`. -/
def c9p : BlockImportParams Nat Nat Nat := ⟨⟨[1]⟩, [2], some [3], none, false⟩

/-- Concrete empty foreign-asset-creator state for the round-trip
witness. -/
def c10s : FACState String Nat := ⟨[], [], []⟩

/-- Concrete state in which asset id 1 is already mapped, for the
rollback-on-failure witness. -/
def c10s2 : FACState String Nat := ⟨[(1, "other")], [("other", 1)], []⟩

/-! ## Scheduler loop lemmas -/

theorem runOutstanding_ledger (b : Nat) :
    ∀ (ds : List MigrationDescriptor) (L : List String) (acc : Nat),
      (runOutstanding b ds L acc).ledger = L ++ ds.map (fun d => d.name)
  | [], L, acc => by simp [runOutstanding]
  | d :: rest, L, acc => by
      simp [runOutstanding, runOutstanding_ledger b rest]

theorem runOutstanding_startedNames (b : Nat) :
    ∀ (ds : List MigrationDescriptor) (L : List String) (acc : Nat),
      migrationStartedNames (runOutstanding b ds L acc).events =
        ds.map (fun d => d.name)
  | [], _, _ => by simp [runOutstanding, migrationStartedNames]
  | d :: rest, L, acc => by
      simp [runOutstanding, migrationStartedNames,
        runOutstanding_startedNames b rest]

theorem runOutstanding_completedNames (b : Nat) :
    ∀ (ds : List MigrationDescriptor) (L : List String) (acc : Nat),
      migrationCompletedNames (runOutstanding b ds L acc).events =
        ds.map (fun d => d.name)
  | [], _, _ => by simp [runOutstanding, migrationCompletedNames]
  | d :: rest, L, acc => by
      simp [runOutstanding, migrationCompletedNames,
        runOutstanding_completedNames b rest]

theorem runOutstanding_total (b : Nat) :
    ∀ (ds : List MigrationDescriptor) (L : List String) (acc : Nat),
      (runOutstanding b ds L acc).total =
        acc + sumConsumed (runOutstanding b ds L acc).events
  | [], _, _ => by simp [runOutstanding, sumConsumed]
  | d :: rest, L, acc => by
      have ih := runOutstanding_total b rest (L ++ [d.name])
        (acc + d.step (b - acc))
      simp [runOutstanding, sumConsumed] at ih ⊢
      omega

theorem migrationStartedNames_append (l1 l2 : List Event) :
    migrationStartedNames (l1 ++ l2) =
      migrationStartedNames l1 ++ migrationStartedNames l2 := by
  induction l1 with
  | nil => rfl
  | cons e t ih => cases e <;> simp [migrationStartedNames, ih]

theorem migrationCompletedNames_append (l1 l2 : List Event) :
    migrationCompletedNames (l1 ++ l2) =
      migrationCompletedNames l1 ++ migrationCompletedNames l2 := by
  induction l1 with
  | nil => rfl
  | cons e t ih => cases e <;> simp [migrationCompletedNames, ih]

theorem sumConsumed_append (l1 l2 : List Event) :
    sumConsumed (l1 ++ l2) = sumConsumed l1 + sumConsumed l2 := by
  induction l1 with
  | nil => simp [sumConsumed]
  | cons e t ih => cases e <;> simp [sumConsumed, ih, Nat.add_assoc]

theorem lastOfSnoc {α : Type} (e : α) (l : List α) (x : α) :
    (e :: (l ++ [x])).getLast? = some x := by
  rw [show e :: (l ++ [x]) = (e :: l) ++ [x] from rfl]
  exact List.getLast?_concat _

theorem tick_ledger (o b : Nat) (reg : List MigrationDescriptor)
    (L : List String) :
    (run_upgrade_tick o b reg L).ledger =
      L ++ (outstanding reg L).map (fun d => d.name) :=
  runOutstanding_ledger b (outstanding reg L) L 0

theorem tick_startedNames (o b : Nat) (reg : List MigrationDescriptor)
    (L : List String) :
    migrationStartedNames (run_upgrade_tick o b reg L).events =
      (outstanding reg L).map (fun d => d.name) := by
  show migrationStartedNames (Event.UpgradeCycleStarted ::
    ((runOutstanding b (outstanding reg L) L 0).events ++
      [Event.UpgradeCycleCompleted
        (o + (runOutstanding b (outstanding reg L) L 0).total)])) = _
  simp [migrationStartedNames, migrationStartedNames_append,
    runOutstanding_startedNames b (outstanding reg L) L 0]

theorem tick_completedNames (o b : Nat) (reg : List MigrationDescriptor)
    (L : List String) :
    migrationCompletedNames (run_upgrade_tick o b reg L).events =
      (outstanding reg L).map (fun d => d.name) := by
  show migrationCompletedNames (Event.UpgradeCycleStarted ::
    ((runOutstanding b (outstanding reg L) L 0).events ++
      [Event.UpgradeCycleCompleted
        (o + (runOutstanding b (outstanding reg L) L 0).total)])) = _
  simp [migrationCompletedNames, migrationCompletedNames_append,
    runOutstanding_completedNames b (outstanding reg L) L 0]

theorem tick_of_empty_outstanding (o b : Nat) (reg : List MigrationDescriptor)
    (L : List String) (h : outstanding reg L = []) :
    run_upgrade_tick o b reg L =
      ⟨L, [Event.UpgradeCycleStarted, Event.UpgradeCycleCompleted o], o⟩ := by
  unfold run_upgrade_tick
  rw [h]
  rfl

theorem outstanding_of_fully (reg : List MigrationDescriptor)
    (L : List String) (h : is_fully_upgraded reg L = true) :
    outstanding reg L = [] := by
  unfold is_fully_upgraded at h
  rw [List.all_eq_true] at h
  unfold outstanding
  rw [List.filter_eq_nil_iff]
  intro d hd
  have := h d hd
  simp_all

/-! ## Claim C2 — idempotence once fully upgraded -/

/-- C2: `run_upgrade_tick` is idempotent once all registry names are in the
ledger: for every state in which `outstanding` is empty, a further tick
performs no descriptor work (the ledger is untouched and no `Migration*`
event — hence no `step` call — occurs), charges only the fixed overhead,
and emits only the cycle Started/Completed pair. -/
theorem C2_tick_idempotent_when_fully_upgraded (o b : Nat)
    (reg : List MigrationDescriptor) (L : List String)
    (h : is_fully_upgraded reg L = true) :
    run_upgrade_tick o b reg L =
      ⟨L, [Event.UpgradeCycleStarted, Event.UpgradeCycleCompleted o], o⟩ :=
  tick_of_empty_outstanding o b reg L (outstanding_of_fully reg L h)

/-- Witness for C2 at a concrete fully-upgraded state. -/
theorem C2_witness :
    is_fully_upgraded [⟨"migration1", fun _ => 1⟩] ["migration1"] = true ∧
    run_upgrade_tick 100000000 500000000000
        [⟨"migration1", fun _ => 1⟩] ["migration1"] =
      ⟨["migration1"],
        [Event.UpgradeCycleStarted, Event.UpgradeCycleCompleted 100000000],
        100000000⟩ :=
  ⟨by decide,
    C2_tick_idempotent_when_fully_upgraded 100000000 500000000000
      [⟨"migration1", fun _ => 1⟩] ["migration1"] (by decide)⟩

/-! ## Claim C4 — charged value equals accumulated cost plus overhead -/

/-- C4: for every tick, the value `run_upgrade_tick` returns to the host
equals the accumulated cost reported by the descriptor steps executed in
that tick (the consumed weights carried by the `MigrationCompleted`
events) plus the fixed overhead, and the closing `UpgradeCycleCompleted`
event carries that same value. -/
theorem C4_charged_is_accumulated_plus_overhead (o b : Nat)
    (reg : List MigrationDescriptor) (L : List String) :
    (run_upgrade_tick o b reg L).charged =
      o + sumConsumed (run_upgrade_tick o b reg L).events ∧
    (run_upgrade_tick o b reg L).events.getLast? =
      some (Event.UpgradeCycleCompleted ((run_upgrade_tick o b reg L).charged)) := by
  constructor
  · show o + (runOutstanding b (outstanding reg L) L 0).total =
      o + sumConsumed (Event.UpgradeCycleStarted ::
        ((runOutstanding b (outstanding reg L) L 0).events ++
          [Event.UpgradeCycleCompleted
            (o + (runOutstanding b (outstanding reg L) L 0).total)]))
    rw [runOutstanding_total b (outstanding reg L) L 0]
    simp [sumConsumed, sumConsumed_append]
  · exact lastOfSnoc _ _ _

/-! ## Claim C5 — events of a tick with empty `outstanding` -/

/-- C5 counterexample: on a state whose `outstanding` is empty (here the
empty registry), the tick does not emit only the `UpgradeCycleCompleted`
event: `UpgradeCycleStarted` is emitted as well, as the in-tree test
`on_runtime_upgrade_emits_events` requires. -/
theorem C5_counterexample :
    is_fully_upgraded [] ([] : List String) = true ∧
    (run_upgrade_tick 100000000 500000000000 [] []).events ≠
      [Event.UpgradeCycleCompleted 100000000] ∧
    Event.UpgradeCycleStarted ∈
      (run_upgrade_tick 100000000 500000000000 [] []).events := by
  decide

/-- C5 (amended): when `outstanding` is empty at tick start,
`run_upgrade_tick` emits `UpgradeCycleStarted` followed by
`UpgradeCycleCompleted{overhead}` — the Started event is emitted
unconditionally at tick start, not only on the non-empty branch — and
returns the fixed overhead cost. -/
theorem C5_empty_tick_emits_cycle_pair (o b : Nat)
    (reg : List MigrationDescriptor) (L : List String)
    (h : outstanding reg L = []) :
    (run_upgrade_tick o b reg L).events =
      [Event.UpgradeCycleStarted, Event.UpgradeCycleCompleted o] ∧
    (run_upgrade_tick o b reg L).charged = o := by
  rw [tick_of_empty_outstanding o b reg L h]
  exact ⟨rfl, rfl⟩

/-- Witness for the amended C5 on the empty registry. -/
theorem C5_witness :
    (run_upgrade_tick 7 9 [] ([] : List String)).events =
      [Event.UpgradeCycleStarted, Event.UpgradeCycleCompleted 7] ∧
    (run_upgrade_tick 7 9 [] ([] : List String)).charged = 7 :=
  C5_empty_tick_emits_cycle_pair 7 9 [] [] rfl

/-! ## Claim C6 — concrete single-migration event log -/

/-- C6: for the registry `["migration1"]` with step cost 1 and fixed
overhead 100000000, the first tick emits exactly `UpgradeCycleStarted`,
`MigrationStarted "migration1"`, `MigrationCompleted "migration1" 1`,
`UpgradeCycleCompleted 100000001` while recording the name, and a second
tick on the now-complete ledger emits exactly `UpgradeCycleStarted` then
`UpgradeCycleCompleted 100000000` and nothing else. -/
theorem C6_single_migration_event_log :
    run_upgrade_tick 100000000 500000000000
        [⟨"migration1", fun _ => 1⟩] [] =
      ⟨["migration1"],
        [Event.UpgradeCycleStarted, Event.MigrationStarted "migration1",
          Event.MigrationCompleted "migration1" 1,
          Event.UpgradeCycleCompleted 100000001],
        100000001⟩ ∧
    run_upgrade_tick 100000000 500000000000
        [⟨"migration1", fun _ => 1⟩] ["migration1"] =
      ⟨["migration1"],
        [Event.UpgradeCycleStarted, Event.UpgradeCycleCompleted 100000000],
        100000000⟩ := by
  exact ⟨rfl, rfl⟩

/-! ## Claim C1 — each descriptor stepped exactly once, in order -/

/-- C1: starting from any ledger, running the tick until
`is_fully_upgraded` holds (a single tick reaches it) steps exactly the
descriptors whose names the ledger does not yet record — once each and in
registration order — inserts each such name into the ledger exactly once
(the final ledger stays duplicate-free), emits no duplicate
`MigrationCompleted` event for any name, never re-executes a name already
recorded in the ledger, and a later tick performs no step at all. Each
`MigrationStarted` event marks exactly one `step` invocation. -/
theorem C1_each_outstanding_stepped_once_in_order (o b : Nat)
    (reg : List MigrationDescriptor) (L0 : List String)
    (hreg : (reg.map (fun d => d.name)).Nodup) (hL0 : L0.Nodup) :
    (run_upgrade_tick o b reg L0).ledger =
      L0 ++ (outstanding reg L0).map (fun d => d.name) ∧
    migrationStartedNames (run_upgrade_tick o b reg L0).events =
      (outstanding reg L0).map (fun d => d.name) ∧
    migrationCompletedNames (run_upgrade_tick o b reg L0).events =
      (outstanding reg L0).map (fun d => d.name) ∧
    (migrationCompletedNames (run_upgrade_tick o b reg L0).events).Nodup ∧
    (run_upgrade_tick o b reg L0).ledger.Nodup ∧
    List.Disjoint L0
      (migrationStartedNames (run_upgrade_tick o b reg L0).events) ∧
    is_fully_upgraded reg (run_upgrade_tick o b reg L0).ledger = true ∧
    migrationStartedNames
      (run_upgrade_tick o b reg (run_upgrade_tick o b reg L0).ledger).events =
      [] := by
  have hled := tick_ledger o b reg L0
  have hmsn : migrationStartedNames (run_upgrade_tick o b reg L0).events =
      (outstanding reg L0).map (fun d => d.name) := by
    show migrationStartedNames (Event.UpgradeCycleStarted ::
      ((runOutstanding b (outstanding reg L0) L0 0).events ++
        [Event.UpgradeCycleCompleted
          (o + (runOutstanding b (outstanding reg L0) L0 0).total)])) = _
    simp [migrationStartedNames, migrationStartedNames_append,
      runOutstanding_startedNames b (outstanding reg L0) L0 0]
  have hmcn : migrationCompletedNames (run_upgrade_tick o b reg L0).events =
      (outstanding reg L0).map (fun d => d.name) := by
    show migrationCompletedNames (Event.UpgradeCycleStarted ::
      ((runOutstanding b (outstanding reg L0) L0 0).events ++
        [Event.UpgradeCycleCompleted
          (o + (runOutstanding b (outstanding reg L0) L0 0).total)])) = _
    simp [migrationCompletedNames, migrationCompletedNames_append,
      runOutstanding_completedNames b (outstanding reg L0) L0 0]
  have hsub : List.Sublist ((outstanding reg L0).map (fun d => d.name))
      (reg.map (fun d => d.name)) :=
    List.Sublist.map _ (List.filter_sublist reg)
  have hnodupMapped : ((outstanding reg L0).map (fun d => d.name)).Nodup :=
    List.Nodup.sublist hsub hreg
  have hdisj : ∀ m ∈ (outstanding reg L0).map (fun d => d.name), m ∉ L0 := by
    intro m hm
    obtain ⟨d, hd, rfl⟩ := List.mem_map.1 hm
    have := (List.mem_filter.1 hd).2
    simpa using this
  have hmemfull : ∀ d ∈ reg,
      d.name ∈ L0 ++ (outstanding reg L0).map (fun d => d.name) := by
    intro d hd
    rw [List.mem_append]
    by_cases hcase : d.name ∈ L0
    · exact Or.inl hcase
    · refine Or.inr (List.mem_map.2 ⟨d, ?_, rfl⟩)
      exact List.mem_filter.2 ⟨hd, by simpa using hcase⟩
  have hfully : is_fully_upgraded reg (run_upgrade_tick o b reg L0).ledger =
      true := by
    unfold is_fully_upgraded
    rw [List.all_eq_true]
    intro d hd
    rw [hled]
    simpa using hmemfull d hd
  refine ⟨hled, hmsn, hmcn, ?_, ?_, ?_, hfully, ?_⟩
  · rw [hmcn]; exact hnodupMapped
  · rw [hled]
    exact List.Nodup.append hL0 hnodupMapped
      (fun m hm1 hm2 => hdisj m hm2 hm1)
  · rw [hmsn]
    intro m hm1 hm2
    exact hdisj m hm2 hm1
  · have hout2 : outstanding reg (run_upgrade_tick o b reg L0).ledger = [] := by
      unfold outstanding
      rw [List.filter_eq_nil_iff]
      intro d hd
      have : d.name ∈ (run_upgrade_tick o b reg L0).ledger := by
        rw [hled]; exact hmemfull d hd
      simpa using this
    rw [tick_of_empty_outstanding o b reg _ hout2]
    rfl

/-- Witness for C1 on a concrete registry with one already-recorded name. -/
theorem C1_witness :
    ((c1Reg.map (fun d => d.name)).Nodup ∧ (["done1"] : List String).Nodup) ∧
    ((run_upgrade_tick 100000000 500000000000 c1Reg ["done1"]).ledger =
        ["done1"] ++ (outstanding c1Reg ["done1"]).map (fun d => d.name) ∧
      migrationStartedNames
          (run_upgrade_tick 100000000 500000000000 c1Reg ["done1"]).events =
        (outstanding c1Reg ["done1"]).map (fun d => d.name) ∧
      migrationCompletedNames
          (run_upgrade_tick 100000000 500000000000 c1Reg ["done1"]).events =
        (outstanding c1Reg ["done1"]).map (fun d => d.name) ∧
      (migrationCompletedNames
          (run_upgrade_tick 100000000 500000000000 c1Reg ["done1"]).events).Nodup ∧
      (run_upgrade_tick 100000000 500000000000 c1Reg ["done1"]).ledger.Nodup ∧
      List.Disjoint ["done1"] (migrationStartedNames
          (run_upgrade_tick 100000000 500000000000 c1Reg ["done1"]).events) ∧
      is_fully_upgraded c1Reg
          (run_upgrade_tick 100000000 500000000000 c1Reg ["done1"]).ledger =
        true ∧
      migrationStartedNames
          (run_upgrade_tick 100000000 500000000000 c1Reg
            (run_upgrade_tick 100000000 500000000000 c1Reg ["done1"]).ledger).events =
        []) :=
  ⟨⟨by decide, by decide⟩,
    C1_each_outstanding_stepped_once_in_order 100000000 500000000000 c1Reg
      ["done1"] (by decide) (by decide)⟩

/-! ## Claim C3 — overweight migrations tolerated -/

/-- C3: for a registry of three uncompleted descriptors whose steps each
report a cost strictly exceeding the per-tick budget, a single
`run_upgrade_tick` still invokes all three steps exactly once each, in
order, and afterwards `is_fully_upgraded` returns true — the scheduler
never aborts mid-run on budget exhaustion. -/
theorem C3_overweight_migrations_tolerated (o b : Nat)
    (d1 d2 d3 : MigrationDescriptor)
    (_hn12 : d1.name ≠ d2.name) (_hn13 : d1.name ≠ d3.name)
    (_hn23 : d2.name ≠ d3.name)
    (_hov1 : ∀ r, b < d1.step r) (_hov2 : ∀ r, b < d2.step r)
    (_hov3 : ∀ r, b < d3.step r) :
    migrationStartedNames (run_upgrade_tick o b [d1, d2, d3] []).events =
      [d1.name, d2.name, d3.name] ∧
    migrationCompletedNames (run_upgrade_tick o b [d1, d2, d3] []).events =
      [d1.name, d2.name, d3.name] ∧
    is_fully_upgraded [d1, d2, d3]
      (run_upgrade_tick o b [d1, d2, d3] []).ledger = true := by
  have hout : outstanding [d1, d2, d3] ([] : List String) = [d1, d2, d3] := by
    simp [outstanding]
  refine ⟨?_, ?_, ?_⟩
  · rw [tick_startedNames, hout]
    rfl
  · rw [tick_completedNames, hout]
    rfl
  · rw [is_fully_upgraded, List.all_eq_true]
    intro d hd
    rw [tick_ledger, hout]
    fin_cases hd <;> simp

/-- Witness for C3 with the three overweight descriptors of the test
`overweight_migrations_tolerated` (cost 10^12 against budget 5*10^11). -/
theorem C3_witness :
    migrationStartedNames
        (run_upgrade_tick 100000000 500000000000 [c3m1, c3m2, c3m3] []).events =
      [c3m1.name, c3m2.name, c3m3.name] ∧
    migrationCompletedNames
        (run_upgrade_tick 100000000 500000000000 [c3m1, c3m2, c3m3] []).events =
      [c3m1.name, c3m2.name, c3m3.name] ∧
    is_fully_upgraded [c3m1, c3m2, c3m3]
      (run_upgrade_tick 100000000 500000000000 [c3m1, c3m2, c3m3] []).ledger =
      true :=
  C3_overweight_migrations_tolerated 100000000 500000000000 c3m1 c3m2 c3m3
    (by decide) (by decide) (by decide)
    (fun _ => by show (500000000000 : Nat) < 1000000000000; decide)
    (fun _ => by show (500000000000 : Nat) < 1000000000000; decide)
    (fun _ => by show (500000000000 : Nat) < 1000000000000; decide)

/-! ## Claim C8 — completion-ledger monotonicity -/

/-- C8: across any sequence of normal-operation ticks, once a migration
name is in the completion ledger it remains a member in every later
state; no tick removes a name. -/
theorem C8_ledger_monotone (reg : List MigrationDescriptor)
    (ps : List (Nat × Nat)) (L : List String) (n : String) (h : n ∈ L) :
    n ∈ runTicks reg ps L := by
  induction ps generalizing L with
  | nil => simpa [runTicks] using h
  | cons p ps ih =>
      show n ∈ runTicks reg ps (run_upgrade_tick p.1 p.2 reg L).ledger
      apply ih
      rw [tick_ledger]
      exact List.mem_append_left _ h

/-- Witness for C8 over two concrete ticks. -/
theorem C8_witness :
    "m0" ∈ runTicks c8Reg [(1, 2), (3, 4)] ["m0"] :=
  C8_ledger_monotone c8Reg [(1, 2), (3, 4)] ["m0"] "m0" (by decide)

/-! ## Claim C7 — bounded-batch cleanup removes all, then fails -/

/-- C7: with at least one legacy entry present, a signed call whose limit
covers all entries removes them all and succeeds, and any subsequent call,
with any limit, fails explicitly because no matching entries remain. -/
theorem C7_cleanup_all_then_subsequent_fails {K : Type} (entries : List K)
    (limit limit2 : Nat) (hne : entries ≠ [])
    (hcover : entries.length ≤ limit) :
    clear_local_assets_storage true limit entries = Except.ok ([] : List K) ∧
    clear_local_assets_storage true limit2 ([] : List K) =
      Except.error ClearError.NoEntriesToRemove := by
  constructor
  · unfold clear_local_assets_storage
    rw [if_neg (by decide), if_neg (by simp [hne]),
      List.drop_eq_nil_of_le hcover]
  · rfl

/-- Witness for C7 with five pre-seeded entries and limit 5, then a
follow-up call with limit 1. -/
theorem C7_witness :
    clear_local_assets_storage true 5 ([10, 11, 12, 13, 14] : List Nat) =
      Except.ok [] ∧
    clear_local_assets_storage true 1 ([] : List Nat) =
      Except.error ClearError.NoEntriesToRemove :=
  C7_cleanup_all_then_subsequent_fails [10, 11, 12, 13, 14] 5 1
    (by decide) (by decide)

/-! ## Claim C9 — import-queue verifier seal handling -/

/-- C9: for every header whose digest list is empty, `Verifier.verify`
returns the "HeaderUnsealed" error and produces no block-import
parameters; for every header with at least one digest item, the last item
(the seal) is removed from the header and attached as the single
post-digest of any returned block-import parameters — and with no body
present the verification succeeds outright with exactly those
parameters. -/
theorem C9_verifier_seal_handling {D E J : Type}
    (chk : Header D → List E → Except String Unit) (origin : BlockOrigin)
    (header : Header D) (j : Option J) (body : Option (List E)) (s0 : D)
    (p : BlockImportParams D E J) :
    (header.digest = [] →
      Verifier.verify chk origin header j body =
        Except.error "HeaderUnsealed") ∧
    (header.digest.getLast? = some s0 →
      Verifier.verify chk origin header j body = Except.ok p →
      p.postDigests = [s0] ∧ p.header.digest = header.digest.dropLast) ∧
    (header.digest.getLast? = some s0 → body = none →
      Verifier.verify chk origin header j body =
        Except.ok ⟨⟨header.digest.dropLast⟩, [s0], none, j,
          decide (origin = BlockOrigin.networkInitialSync)⟩) := by
  refine ⟨?_, ?_, ?_⟩
  · intro h
    unfold Verifier.verify digestPop
    rw [h]
    rfl
  · intro hlast hok
    unfold Verifier.verify digestPop at hok
    rw [hlast] at hok
    dsimp only at hok
    cases body with
    | none =>
        cases hok
        exact ⟨rfl, rfl⟩
    | some ib =>
        dsimp only at hok
        cases hchk : chk ⟨header.digest.dropLast⟩ ib with
        | error e =>
            rw [hchk] at hok
            cases hok
        | ok u =>
            rw [hchk] at hok
            cases hok
            exact ⟨rfl, rfl⟩
  · intro hlast hbody
    subst hbody
    unfold Verifier.verify digestPop
    rw [hlast]

/-- Witness for C9: the empty-digest header is rejected as unsealed, and
on a two-item digest the seal `2` is popped off and attached as the only
post-digest of the returned parameters. -/
theorem C9_witness :
    Verifier.verify c9chk BlockOrigin.networkBroadcast (⟨[]⟩ : Header Nat)
        (none : Option Nat) (some [3]) = Except.error "HeaderUnsealed" ∧
    (c9p.postDigests = [2] ∧ c9p.header.digest = c9header.digest.dropLast) ∧
    Verifier.verify c9chk BlockOrigin.networkBroadcast c9header
        (none : Option Nat) none =
      Except.ok ⟨⟨c9header.digest.dropLast⟩, [2], none, none,
        decide (BlockOrigin.networkBroadcast = BlockOrigin.networkInitialSync)⟩ :=
  ⟨(C9_verifier_seal_handling c9chk BlockOrigin.networkBroadcast ⟨[]⟩ none
      (some [3]) 0 c9p).1 rfl,
    (C9_verifier_seal_handling c9chk BlockOrigin.networkBroadcast c9header
      none (some [3]) 2 c9p).2.1 rfl rfl,
    (C9_verifier_seal_handling c9chk BlockOrigin.networkBroadcast c9header
      (none : Option Nat) none 2 c9p).2.2 rfl rfl⟩

/-! ## Claim C10 — foreign-asset mapping round-trip -/

theorem alookup_ainsert_self {K V : Type} [DecidableEq K] :
    ∀ (l : List (K × V)) (k : K) (v : V), alookup (ainsert l k v) k = some v
  | [], k, v => by simp [ainsert, alookup]
  | (k1, v1) :: rest, k, v => by
      by_cases hk : k1 = k
      · simp [ainsert, hk, alookup]
      · simp [ainsert, hk, alookup, alookup_ainsert_self rest k v]

/-- C10: after a successful `create_foreign_asset` on a state where the
asset id was unmapped, the two storage maps agree on the new pair —
`convert` sends the foreign asset to the asset id and `convert_back` sends
the asset id back to the foreign asset; and on any failure (rejected
origin, `AssetAlreadyExists`, or a `Fungibles::create` failure) the state,
and in particular both maps, is unchanged. -/
theorem C10_create_foreign_asset_roundtrip {F A : Type} [DecidableEq F]
    [DecidableEq A] (og cr : Bool) (f : F) (a : A) (s s2 : FACState F A)
    (h : alookup s.assetIdToForeignAsset a = none) :
    ((create_foreign_asset true true f a s).1 = Except.ok () ∧
      convert (create_foreign_asset true true f a s).2 f = some a ∧
      convert_back (create_foreign_asset true true f a s).2 a = some f) ∧
    ((create_foreign_asset og cr f a s2).1 ≠ Except.ok () →
      (create_foreign_asset og cr f a s2).2 = s2) := by
  constructor
  · unfold create_foreign_asset
    rw [if_neg (by decide), if_neg (by simp [h]), if_neg (by decide)]
    exact ⟨rfl, alookup_ainsert_self _ _ _, alookup_ainsert_self _ _ _⟩
  · intro hfail
    unfold create_foreign_asset at hfail ⊢
    cases og with
    | false => rfl
    | true =>
        rw [if_neg (by decide)] at hfail ⊢
        by_cases hs : (alookup s2.assetIdToForeignAsset a).isSome = true
        · rw [if_pos hs]
        · rw [if_neg hs] at hfail ⊢
          cases cr with
          | false => rfl
          | true =>
              rw [if_neg (by decide)] at hfail
              exact absurd rfl hfail

/-- Witness for C10: a successful creation on the empty state yields the
agreeing pair of map entries, and the same call on a state where asset id
1 is already mapped fails and leaves the state unchanged. -/
theorem C10_witness :
    ((create_foreign_asset true true "xcm" 1 c10s).1 = Except.ok () ∧
      convert (create_foreign_asset true true "xcm" 1 c10s).2 "xcm" = some 1 ∧
      convert_back (create_foreign_asset true true "xcm" 1 c10s).2 1 =
        some "xcm") ∧
    (create_foreign_asset true true "xcm" 1 c10s2).2 = c10s2 :=
  ⟨(C10_create_foreign_asset_roundtrip true true "xcm" 1 c10s c10s2
      (by decide)).1,
    (C10_create_foreign_asset_roundtrip true true "xcm" 1 c10s c10s2
      (by decide)).2 (fun hcontra => Except.noConfusion hcontra)⟩
